import Mathlib

/-!
# Verification of the pydpiper-shell Adaptive Crawl Engine

A shallow embedding of the crawl engine's core components, translated from
the Python sources:

* `src/crawler/services/request_to_link_status_propagator_service.py`
  (`PropagationGraph`): status maps as association lists, the worklist
  propagation loop with its iteration cap modelled as fuel.
* `src/crawler/services/async_page_fetcher_service.py`
  (`PageFetcherService` / `PageFetcher`): the adaptive-concurrency and
  circuit-breaker state as a labelled transition system.  Python floats for
  the backoff are modelled as rationals (`* 1.5` is exact in both).
* `src/crawler/controllers/async_crawl_controller.py`: visited-set /
  frontier discipline and the buffer flush.
* `src/crawler/managers/adaptive_worker_manager.py`: the per-item worker
  loop outcome.
* `src/crawler/services/robots_txt_service.py` together with the behaviour
  of CPython's `urllib.robotparser.RobotFileParser` (a library dependency,
  embedded from its stdlib semantics).
* `src/crawler/services/link_processor_service.py` and
  `src/crawler/utils/url_utils.py`: link classification over parsed URLs.
-/

/-! ## Status maps (Python `Dict[str, int]`) as association lists -/

/-- Association-list model of the Python dict `statuses : Dict[str, int]`.
Insertion order is preserved, matching Python 3.7+ dict semantics. -/
abbrev StatusMap := List (String × Int)

/-- First-match lookup in a status map (`dict.get`). -/
def lookupStatus : StatusMap → String → Option Int
  | [], _ => none
  | (k, v) :: rest, u => if k = u then some v else lookupStatus rest u

/-- `self.statuses.get(url, 0)`. -/
def getStatus (m : StatusMap) (u : String) : Int :=
  (lookupStatus m u).getD 0

/-- `self.statuses[url] = v`: replace the binding if the key is present,
append a new binding (insertion order) otherwise. -/
def updateStatus : StatusMap → String → Int → StatusMap
  | [], u, v => [(u, v)]
  | (k, w) :: rest, u, v =>
    if k = u then (k, v) :: rest else (k, w) :: updateStatus rest u v

/-! ## `PropagationGraph` (request_to_link_status_propagator_service.py) -/

/-- Adjacency map `Dict[str, Set[str]]`; the Python set of targets is
modelled as a duplicate-free list in insertion order. -/
abbrev GraphMap := List (String × List String)

/-- `self.graph.get(url, set())`. -/
def getTargets : GraphMap → String → List String
  | [], _ => []
  | (k, ts) :: rest, u => if k = u then ts else getTargets rest u

/-- `self.graph[source_url].add(target_url)` on a `defaultdict(set)`. -/
def addTargetEdge : GraphMap → String → String → GraphMap
  | [], s, t => [(s, [t])]
  | (k, ts) :: rest, s, t =>
    if k = s then (k, if t ∈ ts then ts else ts ++ [t]) :: rest
    else (k, ts) :: addTargetEdge rest s t

/-- The in-memory propagation graph (`class PropagationGraph`). -/
structure PropagationGraph where
  graph : GraphMap
  statuses : StatusMap

namespace PropagationGraph

/-- `PropagationGraph()`. -/
def empty : PropagationGraph := ⟨[], []⟩

/-- `add_link(source_url, target_url)`. -/
def add_link (g : PropagationGraph) (source_url target_url : String) : PropagationGraph :=
  { g with graph := addTargetEdge g.graph source_url target_url }

/-- `set_status(url, status)`.  The Python argument is `Any`; values that are
not numbers, or that are NaN, fall through to `status_int = 0`, modelled by
`none`.  Numeric values arrive already truncated to an integer (`int(status)`). -/
def set_status (g : PropagationGraph) (url : String) (status : Option Int) : PropagationGraph :=
  let status_int : Int := status.getD 0
  if status_int ≤ 0 then
    if (lookupStatus g.statuses url).isNone then
      { g with statuses := updateStatus g.statuses url 0 }
    else g
  else
    let existing_status := getStatus g.statuses url
    if existing_status < status_int then
      { g with statuses := updateStatus g.statuses url status_int }
    else g

end PropagationGraph

/-- The inner `for target_url in targets` loop of `propagate_statuses`:
raise each target whose recorded status is below `current_status`, appending
newly raised targets to the worklist when not already queued.  Returns the
updated statuses and worklist. -/
def propagateTargets (st : StatusMap) (queue : List String) (current_status : Int) :
    List String → StatusMap × List String
  | [] => (st, queue)
  | t :: ts =>
    if getStatus st t < current_status then
      propagateTargets (updateStatus st t current_status)
        (if t ∈ queue then queue else queue ++ [t]) current_status ts
    else
      propagateTargets st queue current_status ts

/-- The `while queue and iterations < max_iterations` worklist loop of
`propagate_statuses`; the iteration cap is the fuel. -/
def propagateLoop (g : GraphMap) : Nat → List String → StatusMap → StatusMap
  | 0, _, st => st
  | _ + 1, [], st => st
  | fuel + 1, current_url :: rest, st =>
    if getStatus st current_url = 0 then propagateLoop g fuel rest st
    else
      propagateLoop g fuel
        (propagateTargets st rest (getStatus st current_url) (getTargets g current_url)).2
        (propagateTargets st rest (getStatus st current_url) (getTargets g current_url)).1

namespace PropagationGraph

/-- `propagate_statuses()`: seed the worklist with every URL holding a
positive status and run the bounded worklist loop
(`max_iterations = len(self.graph) * 2 + 1000`). -/
def propagate_statuses (g : PropagationGraph) : PropagationGraph :=
  let queue := (g.statuses.filter (fun p => 0 < p.2)).map (fun p => p.1)
  let max_iterations := g.graph.length * 2 + 1000
  { g with statuses := propagateLoop g.graph max_iterations queue g.statuses }

/-- `get_all_statuses()`. -/
def get_all_statuses (g : PropagationGraph) : StatusMap := g.statuses

end PropagationGraph

/-! ## Lemmas about status maps and propagation -/

theorem lookupStatus_mem : ∀ {m : StatusMap} {u : String} {v : Int},
    lookupStatus m u = some v → (u, v) ∈ m := by
  intro m
  induction m with
  | nil => intro u v h; simp [lookupStatus] at h
  | cons p rest ih =>
    intro u v h
    obtain ⟨k, w⟩ := p
    rw [lookupStatus] at h
    split at h
    · next hk =>
      injection h with h
      subst hk; subst h
      exact List.mem_cons_self _ _
    · exact List.mem_cons_of_mem _ (ih h)

/-- Every looked-up value of a map whose stored values are nonnegative is
nonnegative (absent keys read as 0). -/
theorem getStatus_nonneg {m : StatusMap} (h : ∀ p ∈ m, 0 ≤ p.2) (u : String) :
    0 ≤ getStatus m u := by
  unfold getStatus
  cases hl : lookupStatus m u with
  | none => simp
  | some v => simpa using h _ (lookupStatus_mem hl)

theorem getStatus_updateStatus (m : StatusMap) (u : String) (v : Int) (x : String) :
    getStatus (updateStatus m u v) x = if u = x then v else getStatus m x := by
  induction m with
  | nil =>
    by_cases hx : u = x <;> simp [updateStatus, getStatus, lookupStatus, hx]
  | cons p rest ih =>
    obtain ⟨k, w⟩ := p
    by_cases hk : k = u
    · subst hk
      by_cases hx : k = x
      · subst hx; simp [updateStatus, getStatus, lookupStatus]
      · simp [updateStatus, getStatus, lookupStatus, hx, Ne.symm hx]
    · by_cases hx : k = x
      · subst hx
        have hux : ¬ u = k := fun h => hk h.symm
        simp [updateStatus, hk, getStatus, lookupStatus, hux]
      · simp only [updateStatus, if_neg hk]
        have := ih
        simp [getStatus, lookupStatus, hx] at this ⊢
        exact this

theorem mem_updateStatus : ∀ {m : StatusMap} {u : String} {v : Int} {q : String × Int},
    q ∈ updateStatus m u v → q.2 = v ∨ q ∈ m := by
  intro m
  induction m with
  | nil =>
    intro u v q h
    simp [updateStatus] at h
    subst h; left; rfl
  | cons p rest ih =>
    intro u v q h
    obtain ⟨k, w⟩ := p
    rw [updateStatus] at h
    split at h
    · rcases List.mem_cons.mp h with h | h
      · subst h; left; rfl
      · right; exact List.mem_cons_of_mem _ h
    · rcases List.mem_cons.mp h with h | h
      · subst h; right; exact List.mem_cons_self _ _
      · rcases ih h with h | h
        · left; exact h
        · right; exact List.mem_cons_of_mem _ h

/-- All values stored during propagation come from the original map:
every key either still holds its original value, or holds a positive value
that some key of the original map held. -/
def ValuesFrom (st0 st : StatusMap) : Prop :=
  ∀ u, getStatus st u = getStatus st0 u ∨
    ((∃ v, getStatus st0 v = getStatus st u) ∧ 0 < getStatus st u)

theorem valuesFrom_refl (st0 : StatusMap) : ValuesFrom st0 st0 :=
  fun _ => Or.inl rfl

theorem propagateTargets_fst_mono (c : Int) : ∀ (ts : List String) (st : StatusMap)
    (q : List String) (u : String),
    getStatus st u ≤ getStatus (propagateTargets st q c ts).1 u := by
  intro ts
  induction ts with
  | nil => intro st q u; simp [propagateTargets]
  | cons t ts ih =>
    intro st q u
    rw [propagateTargets]
    split
    · next hlt =>
      refine le_trans ?_ (ih _ _ u)
      rw [getStatus_updateStatus]
      split
      · next ht => subst ht; exact le_of_lt hlt
      · exact le_refl _
    · exact ih _ _ u

theorem propagateTargets_fst_nonneg {c : Int} (hc : 0 ≤ c) : ∀ (ts : List String)
    (st : StatusMap) (q : List String), (∀ p ∈ st, 0 ≤ p.2) →
    ∀ p ∈ (propagateTargets st q c ts).1, 0 ≤ p.2 := by
  intro ts
  induction ts with
  | nil => intro st q hst; simpa [propagateTargets] using hst
  | cons t ts ih =>
    intro st q hst
    rw [propagateTargets]
    split
    · refine ih _ _ ?_
      intro p hp
      rcases mem_updateStatus hp with h | h
      · rw [h]; exact hc
      · exact hst _ h
    · exact ih _ _ hst

theorem propagateTargets_fst_valuesFrom {st0 : StatusMap} {c : Int}
    (hcv : ∃ v, getStatus st0 v = c) (hcpos : 0 < c) : ∀ (ts : List String)
    (st : StatusMap) (q : List String), ValuesFrom st0 st →
    ValuesFrom st0 (propagateTargets st q c ts).1 := by
  intro ts
  induction ts with
  | nil => intro st q hst; simpa [propagateTargets] using hst
  | cons t ts ih =>
    intro st q hst
    rw [propagateTargets]
    split
    · refine ih _ _ ?_
      intro u
      rw [getStatus_updateStatus]
      split
      · exact Or.inr ⟨hcv, hcpos⟩
      · exact hst u
    · exact ih _ _ hst

theorem propagateLoop_mono (g : GraphMap) : ∀ (fuel : Nat) (q : List String)
    (st : StatusMap) (u : String), getStatus st u ≤ getStatus (propagateLoop g fuel q st) u := by
  intro fuel
  induction fuel with
  | zero => intro q st u; simp [propagateLoop]
  | succ n ih =>
    intro q st u
    cases q with
    | nil => simp [propagateLoop]
    | cons cur rest =>
      rw [propagateLoop]
      split
      · exact ih _ _ u
      · exact le_trans (propagateTargets_fst_mono _ _ _ _ u) (ih _ _ u)

theorem propagateLoop_nonneg_valuesFrom (g : GraphMap) (st0 : StatusMap) :
    ∀ (fuel : Nat) (q : List String) (st : StatusMap),
    (∀ p ∈ st, 0 ≤ p.2) → ValuesFrom st0 st →
    (∀ p ∈ propagateLoop g fuel q st, 0 ≤ p.2) ∧
      ValuesFrom st0 (propagateLoop g fuel q st) := by
  intro fuel
  induction fuel with
  | zero => intro q st h1 h2; exact ⟨by simpa [propagateLoop] using h1, by simpa [propagateLoop] using h2⟩
  | succ n ih =>
    intro q st h1 h2
    cases q with
    | nil =>
      exact ⟨by simpa [propagateLoop] using h1, by simpa [propagateLoop] using h2⟩
    | cons cur rest =>
      rw [propagateLoop]
      split
      · exact ih _ _ h1 h2
      · next hne =>
        have hpos : 0 < getStatus st cur :=
          lt_of_le_of_ne (getStatus_nonneg h1 cur) (Ne.symm hne)
        have hcv : ∃ v, getStatus st0 v = getStatus st cur := by
          rcases h2 cur with h | h
          · exact ⟨cur, h.symm⟩
          · exact h.1
        exact ih _ _
          (propagateTargets_fst_nonneg (le_of_lt hpos) _ _ _ h1)
          (propagateTargets_fst_valuesFrom hcv hpos _ _ _ h2)

/-! ## `set_status` / `propagate_statuses` properties -/

theorem set_status_nonpos_getStatus (g : PropagationGraph) (url : String)
    (status : Option Int) (hst : status.getD 0 ≤ 0) (x : String) :
    getStatus (g.set_status url status).statuses x = getStatus g.statuses x := by
  simp only [PropagationGraph.set_status, if_pos hst]
  split
  · next habs =>
    simp only [getStatus_updateStatus]
    split
    · next hux =>
      subst hux
      simp [getStatus, Option.isNone_iff_eq_none.mp habs]
    · rfl
  · rfl

theorem set_status_pos_getStatus (g : PropagationGraph) (url : String) (n : Int)
    (hn : 0 < n) :
    getStatus (g.set_status url (some n)).statuses url = max (getStatus g.statuses url) n := by
  have hn' : ¬ ((some n : Option Int).getD 0 ≤ 0) := by simpa using hn
  simp only [PropagationGraph.set_status, if_neg hn']
  split
  · next hlt =>
    simp only [getStatus_updateStatus, if_pos rfl, Option.getD_some]
    exact (max_eq_right (le_of_lt (by simpa using hlt))).symm
  · next hge =>
    simp only [Option.getD_some] at hge
    exact (max_eq_left (le_of_not_lt hge)).symm

theorem set_status_mono (g : PropagationGraph) (url : String) (status : Option Int)
    (x : String) :
    getStatus g.statuses x ≤ getStatus (g.set_status url status).statuses x := by
  by_cases hst : status.getD 0 ≤ 0
  · rw [set_status_nonpos_getStatus g url status hst x]
  · simp only [PropagationGraph.set_status, if_neg hst]
    split
    · next hlt =>
      simp only [getStatus_updateStatus]
      split
      · next hux => subst hux; exact le_of_lt hlt
      · exact le_refl _
    · exact le_refl _

theorem set_status_nonneg (g : PropagationGraph) (url : String) (status : Option Int)
    (h : ∀ p ∈ g.statuses, 0 ≤ p.2) :
    ∀ p ∈ (g.set_status url status).statuses, 0 ≤ p.2 := by
  intro p hp
  by_cases hst : status.getD 0 ≤ 0
  · simp only [PropagationGraph.set_status, if_pos hst] at hp
    split at hp
    · rcases mem_updateStatus hp with h0 | h0
      · rw [h0]
      · exact h _ h0
    · exact h _ hp
  · simp only [PropagationGraph.set_status, if_neg hst] at hp
    split at hp
    · rcases mem_updateStatus hp with h0 | h0
      · rw [h0]; exact le_of_lt (lt_of_not_le hst)
      · exact h _ h0
    · exact h _ hp

theorem propagate_statuses_nonneg (g : PropagationGraph)
    (h : ∀ p ∈ g.statuses, 0 ≤ p.2) :
    ∀ p ∈ g.propagate_statuses.statuses, 0 ≤ p.2 :=
  (propagateLoop_nonneg_valuesFrom g.graph g.statuses _ _ _ h
    (valuesFrom_refl g.statuses)).1

theorem propagate_statuses_mono (g : PropagationGraph) (x : String) :
    getStatus g.statuses x ≤ getStatus g.propagate_statuses.statuses x :=
  propagateLoop_mono g.graph _ _ _ x

theorem propagate_statuses_valuesFrom (g : PropagationGraph)
    (h : ∀ p ∈ g.statuses, 0 ≤ p.2) :
    ValuesFrom g.statuses g.propagate_statuses.statuses :=
  (propagateLoop_nonneg_valuesFrom g.graph g.statuses _ _ _ h
    (valuesFrom_refl g.statuses)).2

/-- C10: the propagation service's status map only ever contains non-negative
values: `set_status` coerces non-numeric or non-positive input (including the
transport-error sentinels -1, -2, -10) to 0 and leaves every readable status
unchanged in that case, keeps the maximum status seen per URL when seeding,
and `propagate_statuses` only ever raises (to a value some URL already held),
so no URL's status ever decreases and a URL whose only observed outcome was a
transport error contributes nothing to propagation. -/
theorem set_status_propagate_invariants :
    (∀ (g : PropagationGraph) (url : String) (status : Option Int),
      status.getD 0 ≤ 0 →
      ∀ x, getStatus (g.set_status url status).statuses x = getStatus g.statuses x) ∧
    (∀ (g : PropagationGraph) (url : String) (n : Int), 0 < n →
      getStatus (g.set_status url (some n)).statuses url =
        max (getStatus g.statuses url) n) ∧
    (∀ (g : PropagationGraph) (url : String) (status : Option Int) (x : String),
      getStatus g.statuses x ≤ getStatus (g.set_status url status).statuses x) ∧
    (∀ (g : PropagationGraph) (url : String) (status : Option Int),
      (∀ p ∈ g.statuses, 0 ≤ p.2) → ∀ p ∈ (g.set_status url status).statuses, 0 ≤ p.2) ∧
    (∀ (g : PropagationGraph), (∀ p ∈ g.statuses, 0 ≤ p.2) →
      ∀ p ∈ g.propagate_statuses.statuses, 0 ≤ p.2) ∧
    (∀ (g : PropagationGraph) (x : String),
      getStatus g.statuses x ≤ getStatus g.propagate_statuses.statuses x) ∧
    (∀ (g : PropagationGraph), (∀ p ∈ g.statuses, 0 ≤ p.2) →
      ∀ x, getStatus g.propagate_statuses.statuses x = getStatus g.statuses x ∨
        ((∃ v, getStatus g.statuses v = getStatus g.propagate_statuses.statuses x) ∧
          0 < getStatus g.propagate_statuses.statuses x)) :=
  ⟨set_status_nonpos_getStatus, set_status_pos_getStatus, set_status_mono,
    set_status_nonneg, propagate_statuses_nonneg, propagate_statuses_mono,
    fun g h => propagate_statuses_valuesFrom g h⟩

/-- C10 witness: a transport-error sentinel (-1) seeds status 0 (readable
status unchanged), and seeding 404 over an empty map stores `max 0 404`. -/
theorem set_status_propagate_invariants_witness :
    getStatus ((PropagationGraph.empty.set_status "u" (some (-1))).statuses) "u" =
      getStatus PropagationGraph.empty.statuses "u" ∧
    getStatus ((PropagationGraph.empty.set_status "u" (some 404)).statuses) "u" =
      max (getStatus PropagationGraph.empty.statuses "u") 404 :=
  ⟨set_status_propagate_invariants.1 PropagationGraph.empty "u" (some (-1)) (by decide) "u",
    set_status_propagate_invariants.2.1 PropagationGraph.empty "u" 404 (by decide)⟩

/-- The C8 scenario graph: edges A→B and B→C, seed status A = 500. -/
def scenarioGraphC8 : PropagationGraph :=
  ((PropagationGraph.empty.add_link "A" "B").add_link "B" "C").set_status "A" (some 500)

/-- C8: on the propagation graph `A(500)→B→C` with no direct status for B or
C, `propagate_statuses` yields final statuses B = 500 and C = 500 (the
higher-numeric-status-wins rule applied along edges). -/
theorem propagate_statuses_scenario_A500 :
    getStatus scenarioGraphC8.propagate_statuses.statuses "B" = 500 ∧
    getStatus scenarioGraphC8.propagate_statuses.statuses "C" = 500 := by
  constructor <;> rfl

/-! ## `PageFetcherService` (async_page_fetcher_service.py)

The concurrency / circuit-breaker state, with `asyncio.Event.is_set()`
modelled as a Bool and Python floats as rationals (`* 1.5` and `* 0.5` are
exact in binary floating point for the magnitudes involved, and
`int(x * 0.5)` on a nonnegative int is Nat division by 2). -/

/-- The `config['session']` values read in `PageFetcherService.__init__`. -/
structure FetcherConfig where
  max_concurrency_cap : Nat
  threshold_429 : Nat
  initial_backoff : ℚ
  max_backoff : ℚ

/-- The mutable service state.  `active_requests` is an Int because the
unguarded `-= 1` of `_release_slot` can in principle drive it negative. -/
structure FetcherState where
  active_requests : Int
  current_concurrency_limit : Nat
  smart_max_cap : Nat
  failure_history : List Nat
  consecutive_429 : Nat
  current_backoff : ℚ
  circuit_breaker_set : Bool

/-- The state set up by `__init__`: limit and smart ceiling start at the hard
cap, the breaker starts closed (`self._circuit_breaker.set()`). -/
def initFetcherState (cfg : FetcherConfig) : FetcherState :=
  { active_requests := 0
    current_concurrency_limit := cfg.max_concurrency_cap
    smart_max_cap := cfg.max_concurrency_cap
    failure_history := []
    consecutive_429 := 0
    current_backoff := cfg.initial_backoff
    circuit_breaker_set := true }

/-- `_update_smart_ceiling(crash_point)`: append the crash point, set the
ceiling to `min(max(3, int(mean)), hard_cap)`, then bump it to 1 if that left
it nonpositive. -/
def update_smart_ceiling (cfg : FetcherConfig) (s : FetcherState) (crash_point : Nat) :
    FetcherState :=
  let history := s.failure_history ++ [crash_point]
  let new_cap := max 3 (history.sum / history.length)
  let capped := min new_cap cfg.max_concurrency_cap
  { s with failure_history := history
           smart_max_cap := if capped ≤ 0 then 1 else capped }

/-- `_adjust_concurrency_down()`: learn from the failure at the old limit,
halve the limit with floor 1 (`max(1, int(limit * 0.5))`), then clamp it to
the new smart ceiling. -/
def adjust_concurrency_down (cfg : FetcherConfig) (s : FetcherState) : FetcherState :=
  let s1 := update_smart_ceiling cfg s s.current_concurrency_limit
  { s1 with
    current_concurrency_limit := min (max 1 (s.current_concurrency_limit / 2)) s1.smart_max_cap }

/-- `_adjust_concurrency_up()`: additive increase, gated on being at the
limit, below the smart ceiling, and winning the damped coin flip
(`random.random() < up_damping_factor`, modelled by `coin`). -/
def adjust_concurrency_up (s : FetcherState) (coin : Bool) : FetcherState :=
  if s.active_requests < (s.current_concurrency_limit : Int) then s
  else if s.current_concurrency_limit < s.smart_max_cap then
    if coin then
      { s with current_concurrency_limit := s.current_concurrency_limit + 1 }
    else s
  else s

/-- The guard of `_acquire_slot`'s wait loop: a slot is handed out only once
`active_requests < current_limit` and the circuit breaker event is set. -/
def acquireEnabled (s : FetcherState) : Prop :=
  s.circuit_breaker_set = true ∧ s.active_requests < (s.current_concurrency_limit : Int)

/-- `_acquire_slot` past its wait loop: `self._active_requests += 1`. -/
def acquire_slot (s : FetcherState) : FetcherState :=
  { s with active_requests := s.active_requests + 1 }

/-- `_release_slot`: `self._active_requests -= 1`. -/
def release_slot (s : FetcherState) : FetcherState :=
  { s with active_requests := s.active_requests - 1 }

/-- The common body of `_trigger_429_protection` once past the lock and the
breaker check: scale concurrency down, then increment the consecutive-429
counter. -/
def trigger_429_step (cfg : FetcherConfig) (s : FetcherState) : FetcherState :=
  let s1 := adjust_concurrency_down cfg s
  { s1 with consecutive_429 := s1.consecutive_429 + 1 }

/-- The breaker trip taken when the counter has reached the threshold:
`self._circuit_breaker.clear()` and
`self._current_backoff = min(self._current_backoff * 1.5, self.max_backoff)`
(the sleep uses the pre-growth value). -/
def breaker_trip (cfg : FetcherConfig) (s : FetcherState) : FetcherState :=
  { s with circuit_breaker_set := false
           current_backoff := min (s.current_backoff * (3 / 2)) cfg.max_backoff }

/-- End of the trip after the backoff sleep: counter reset to 0, then
`self._circuit_breaker.set()`. -/
def breaker_reset (s : FetcherState) : FetcherState :=
  { s with consecutive_429 := 0, circuit_breaker_set := true }

/-- The 200-status feedback in `fetch_page`: additive increase, backoff decay
(`max(2.0, backoff * 0.9)`), consecutive counter cleared. -/
def on_success_200 (s : FetcherState) (coin : Bool) : FetcherState :=
  let s1 := adjust_concurrency_up s coin
  { s1 with current_backoff := max 2 (s1.current_backoff * (9 / 10))
            consecutive_429 := 0 }

/-- One observable mutation of the fetcher state, as performed at the actual
call sites: slot acquisition (guarded), slot release, the 200 feedback, the
429 feedback without trip (counter stays below threshold), the 429 feedback
with trip (threshold reached, breaker opens), and the end-of-backoff reset. -/
inductive FetcherStep (cfg : FetcherConfig) : FetcherState → FetcherState → Prop
  | acquire (s : FetcherState) (h : acquireEnabled s) : FetcherStep cfg s (acquire_slot s)
  | release (s : FetcherState) : FetcherStep cfg s (release_slot s)
  | success (s : FetcherState) (coin : Bool) : FetcherStep cfg s (on_success_200 s coin)
  | throttle (s : FetcherState) (h : s.circuit_breaker_set = true)
      (hn : (trigger_429_step cfg s).consecutive_429 < cfg.threshold_429) :
      FetcherStep cfg s (trigger_429_step cfg s)
  | throttleTrip (s : FetcherState) (h : s.circuit_breaker_set = true)
      (hn : cfg.threshold_429 ≤ (trigger_429_step cfg s).consecutive_429) :
      FetcherStep cfg s (breaker_trip cfg (trigger_429_step cfg s))
  | breakerReset (s : FetcherState) (h : s.circuit_breaker_set = false) :
      FetcherStep cfg s (breaker_reset s)

/-- States reachable from `__init__` through the mutators above. -/
inductive FetcherReachable (cfg : FetcherConfig) : FetcherState → Prop
  | init : FetcherReachable cfg (initFetcherState cfg)
  | step {s s' : FetcherState} : FetcherReachable cfg s → FetcherStep cfg s s' →
      FetcherReachable cfg s'

/-- The STEP 2 feedback dispatch of `PageFetcher.fetch_page`. -/
inductive FetchFeedback
  | trigger429Protection
  | success200
  | noFeedback
deriving DecidableEq

/-- `fetch_page`'s feedback branch on the response status: only 429 schedules
`_trigger_429_protection`; only 200 takes the additive-increase path; every
other status — 503 included — takes no feedback action. -/
def fetch_feedback (status : Nat) : FetchFeedback :=
  if status = 429 then FetchFeedback.trigger429Protection
  else if status = 200 then FetchFeedback.success200
  else FetchFeedback.noFeedback

/-! ## Concurrency-chain invariant (C1) -/

theorem update_smart_ceiling_bounds (cfg : FetcherConfig) (s : FetcherState)
    (cp : Nat) (hcap : 1 ≤ cfg.max_concurrency_cap) :
    1 ≤ (update_smart_ceiling cfg s cp).smart_max_cap ∧
    (update_smart_ceiling cfg s cp).smart_max_cap ≤ cfg.max_concurrency_cap := by
  simp only [update_smart_ceiling]
  split
  · exact ⟨le_refl 1, hcap⟩
  · next h =>
    refine ⟨by omega, min_le_right _ _⟩

theorem adjust_concurrency_down_chain (cfg : FetcherConfig) (s : FetcherState)
    (hcap : 1 ≤ cfg.max_concurrency_cap) :
    0 < (adjust_concurrency_down cfg s).current_concurrency_limit ∧
    (adjust_concurrency_down cfg s).current_concurrency_limit ≤
      (adjust_concurrency_down cfg s).smart_max_cap ∧
    (adjust_concurrency_down cfg s).smart_max_cap ≤ cfg.max_concurrency_cap := by
  obtain ⟨h1, h2⟩ := update_smart_ceiling_bounds cfg s s.current_concurrency_limit hcap
  simp only [adjust_concurrency_down]
  refine ⟨?_, min_le_right _ _, h2⟩
  have := le_min (le_max_left 1 (s.current_concurrency_limit / 2)) h1
  omega

theorem adjust_concurrency_up_chain (s : FetcherState) (coin : Bool)
    (h1 : 0 < s.current_concurrency_limit)
    (h2 : s.current_concurrency_limit ≤ s.smart_max_cap) :
    0 < (adjust_concurrency_up s coin).current_concurrency_limit ∧
    (adjust_concurrency_up s coin).current_concurrency_limit ≤
      (adjust_concurrency_up s coin).smart_max_cap ∧
    (adjust_concurrency_up s coin).smart_max_cap = s.smart_max_cap := by
  by_cases hA : s.active_requests < (s.current_concurrency_limit : Int)
  · simp only [adjust_concurrency_up, if_pos hA]
    exact ⟨h1, h2, by trivial⟩
  · by_cases hB : s.current_concurrency_limit < s.smart_max_cap
    · cases coin with
      | false =>
        simp only [adjust_concurrency_up, if_neg hA, if_pos hB, if_neg Bool.false_ne_true]
        exact ⟨h1, h2, by trivial⟩
      | true =>
        simp only [adjust_concurrency_up, if_neg hA, if_pos hB, if_pos rfl]
        exact ⟨Nat.succ_pos _, hB, by trivial⟩
    · simp only [adjust_concurrency_up, if_neg hA, if_neg hB]
      exact ⟨h1, h2, by trivial⟩

theorem fetcherStep_preserves_chain {cfg : FetcherConfig} {s s' : FetcherState}
    (hcap : 1 ≤ cfg.max_concurrency_cap) (hstep : FetcherStep cfg s s')
    (i1 : 0 < s.current_concurrency_limit)
    (i2 : s.current_concurrency_limit ≤ s.smart_max_cap)
    (i3 : s.smart_max_cap ≤ cfg.max_concurrency_cap) :
    0 < s'.current_concurrency_limit ∧
    s'.current_concurrency_limit ≤ s'.smart_max_cap ∧
    s'.smart_max_cap ≤ cfg.max_concurrency_cap := by
  cases hstep with
  | acquire h => exact ⟨i1, i2, i3⟩
  | release => exact ⟨i1, i2, i3⟩
  | success coin =>
    obtain ⟨u1, u2, u3⟩ := adjust_concurrency_up_chain s coin i1 i2
    exact ⟨u1, u2, le_trans (le_of_eq u3) i3⟩
  | throttle h hn => exact adjust_concurrency_down_chain cfg s hcap
  | throttleTrip h hn => exact adjust_concurrency_down_chain cfg s hcap
  | breakerReset h => exact ⟨i1, i2, i3⟩

/-- C1 (amended): on every state reachable through `_acquire_slot`,
`_release_slot`, the 200 feedback (`_adjust_concurrency_up`), the 429
feedback (`_adjust_concurrency_down` / `_update_smart_ceiling`) and the
breaker transitions, the chain
`0 < current_limit ≤ smart_max_cap ≤ hard_cap` holds, provided the
configured hard cap is at least 1.  (The full chain of the claim, with
`active_requests ≤ current_limit` in front, fails: see the
counterexample.) -/
theorem fetcher_limit_chain_invariant (cfg : FetcherConfig)
    (hcap : 1 ≤ cfg.max_concurrency_cap) :
    ∀ s : FetcherState, FetcherReachable cfg s →
      0 < s.current_concurrency_limit ∧
      s.current_concurrency_limit ≤ s.smart_max_cap ∧
      s.smart_max_cap ≤ cfg.max_concurrency_cap := by
  intro s hs
  induction hs with
  | init => exact ⟨hcap, le_refl _, le_refl _⟩
  | step hr hstep ih =>
    exact fetcherStep_preserves_chain hcap hstep ih.1 ih.2.1 ih.2.2

/-- C1 witness: the invariant instantiated at the initial state of a concrete
configuration (hard cap 2). -/
theorem fetcher_limit_chain_invariant_witness :
    0 < (initFetcherState ⟨2, 3, 3, 12⟩).current_concurrency_limit ∧
    (initFetcherState ⟨2, 3, 3, 12⟩).current_concurrency_limit ≤
      (initFetcherState ⟨2, 3, 3, 12⟩).smart_max_cap ∧
    (initFetcherState ⟨2, 3, 3, 12⟩).smart_max_cap ≤
      (⟨2, 3, 3, 12⟩ : FetcherConfig).max_concurrency_cap :=
  fetcher_limit_chain_invariant ⟨2, 3, 3, 12⟩ (by decide) _ FetcherReachable.init

/-- The configuration of the C1 counterexample run: hard cap 2, threshold 3,
backoff 3 capped at 12. -/
def cfgC1 : FetcherConfig := ⟨2, 3, 3, 12⟩

/-- Two slots acquired at limit 2, then one 429 throttle-down: the limit
halves to 1 while both requests are still in flight. -/
def badStateC1 : FetcherState :=
  trigger_429_step cfgC1 (acquire_slot (acquire_slot (initFetcherState cfgC1)))

/-- C1 counterexample: a reachable state of the service in which
`active_requests ≤ current_limit` fails (two active requests, limit 1), so
the claimed chain `active_requests ≤ current_limit ≤ smart_max_cap ≤
hard_cap` does not hold at all times. -/
theorem fetcher_chain_counterexample :
    FetcherReachable cfgC1 badStateC1 ∧
    ¬ (badStateC1.active_requests ≤ (badStateC1.current_concurrency_limit : Int)) := by
  constructor
  · exact ((FetcherReachable.init.step
      (FetcherStep.acquire _ ⟨by decide, by decide⟩)).step
      (FetcherStep.acquire _ ⟨by decide, by decide⟩)).step
      (FetcherStep.throttle _ (by decide) (by decide))
  · decide

/-! ## Circuit breaker protocol (C6) and 429/503 feedback (C4) -/

theorem adjust_concurrency_up_active (s : FetcherState) (coin : Bool) :
    (adjust_concurrency_up s coin).active_requests = s.active_requests := by
  unfold adjust_concurrency_up
  repeat' split
  all_goals rfl

theorem adjust_concurrency_up_breaker (s : FetcherState) (coin : Bool) :
    (adjust_concurrency_up s coin).circuit_breaker_set = s.circuit_breaker_set := by
  unfold adjust_concurrency_up
  repeat' split
  all_goals rfl

/-- C6: (i) while the circuit-breaker event is cleared no fetch slot can be
acquired (`_acquire_slot`'s guard is unsatisfiable); (ii) a trip clears the
breaker and grows the backoff by the factor 1.5 capped at `max_backoff`;
(iii) right after the breaker closes again the consecutive-429 counter is 0;
(iv) any observable mutation that grants a slot (increments
`active_requests`) required the breaker to be set; (v) the breaker only
opens once the consecutive-429 counter has reached the threshold. -/
theorem circuit_breaker_protocol :
    (∀ s : FetcherState, s.circuit_breaker_set = false → ¬ acquireEnabled s) ∧
    (∀ (cfg : FetcherConfig) (s : FetcherState),
      (breaker_trip cfg s).circuit_breaker_set = false ∧
      (breaker_trip cfg s).current_backoff =
        min (s.current_backoff * (3 / 2)) cfg.max_backoff ∧
      (breaker_trip cfg s).current_backoff ≤ cfg.max_backoff) ∧
    (∀ s : FetcherState, (breaker_reset s).consecutive_429 = 0 ∧
      (breaker_reset s).circuit_breaker_set = true) ∧
    (∀ (cfg : FetcherConfig) (s s' : FetcherState), FetcherStep cfg s s' →
      s'.active_requests = s.active_requests + 1 → acquireEnabled s) ∧
    (∀ (cfg : FetcherConfig) (s s' : FetcherState), FetcherStep cfg s s' →
      s.circuit_breaker_set = true → s'.circuit_breaker_set = false →
      cfg.threshold_429 ≤ s.consecutive_429 + 1) := by
  refine ⟨?_, ?_, ?_, ?_, ?_⟩
  · intro s hs hen
    rw [hen.1] at hs
    cases hs
  · intro cfg s
    exact ⟨rfl, rfl, min_le_right _ _⟩
  · intro s
    exact ⟨rfl, rfl⟩
  · intro cfg s s' hstep hact
    cases hstep with
    | acquire h => exact h
    | release =>
      exfalso
      simp only [release_slot] at hact
      omega
    | success coin =>
      exfalso
      simp only [on_success_200, adjust_concurrency_up_active] at hact
      omega
    | throttle h hn =>
      exfalso
      simp only [trigger_429_step, adjust_concurrency_down, update_smart_ceiling] at hact
      omega
    | throttleTrip h hn =>
      exfalso
      simp only [breaker_trip, trigger_429_step, adjust_concurrency_down,
        update_smart_ceiling] at hact
      omega
    | breakerReset h =>
      exfalso
      simp only [breaker_reset] at hact
      omega
  · intro cfg s s' hstep hclosed hopen
    cases hstep with
    | acquire h => rw [show (acquire_slot s).circuit_breaker_set = s.circuit_breaker_set from rfl, hclosed] at hopen; cases hopen
    | release => rw [show (release_slot s).circuit_breaker_set = s.circuit_breaker_set from rfl, hclosed] at hopen; cases hopen
    | success coin =>
      rw [show (on_success_200 s coin).circuit_breaker_set =
        (adjust_concurrency_up s coin).circuit_breaker_set from rfl,
        adjust_concurrency_up_breaker, hclosed] at hopen
      cases hopen
    | throttle h hn =>
      rw [show (trigger_429_step cfg s).circuit_breaker_set = s.circuit_breaker_set from rfl,
        hclosed] at hopen
      cases hopen
    | throttleTrip h hn => exact hn
    | breakerReset h => rw [h] at hclosed; cases hclosed

/-- C6 witness: with hard cap 2, the tripped initial state grants no slot,
while the untripped initial state does (via a concrete acquire step). -/
theorem circuit_breaker_protocol_witness :
    ¬ acquireEnabled (breaker_trip cfgC1 (initFetcherState cfgC1)) ∧
    acquireEnabled (initFetcherState cfgC1) :=
  ⟨circuit_breaker_protocol.1 _ rfl,
    circuit_breaker_protocol.2.2.2.1 cfgC1 (initFetcherState cfgC1)
      (acquire_slot (initFetcherState cfgC1))
      (FetcherStep.acquire _ ⟨rfl, by decide⟩) rfl⟩

/-- C4 counterexample: an HTTP 503 response does not trigger the
adaptive-throttle feedback path — the feedback dispatch of `fetch_page`
takes no action on 503 (only 429 schedules `_trigger_429_protection`), so
the claim fails at status 503. -/
theorem fetch_feedback_503_counterexample :
    fetch_feedback 503 ≠ FetchFeedback.trigger429Protection ∧
    fetch_feedback 503 = FetchFeedback.noFeedback := by
  exact ⟨by decide, by decide⟩

/-- C4 (amended): only status 429 triggers the adaptive-throttle feedback
path; 503 takes no feedback action (and, like 429, is returned to the caller
as an ordinary result status, not an error).  On the 429 path the pre-halving
limit is appended to `failure_history`, `smart_max_cap` is recomputed as the
floored mean of the failure points clamped into `[3, hard_cap]` (and floored
to at least 1), `current_limit` is multiplicatively halved with floor 1 and
clamped to the recomputed ceiling, and the consecutive-429 counter is
incremented. -/
theorem fetch_feedback_429_throttle :
    fetch_feedback 429 = FetchFeedback.trigger429Protection ∧
    fetch_feedback 503 = FetchFeedback.noFeedback ∧
    (∀ (cfg : FetcherConfig) (s : FetcherState),
      (trigger_429_step cfg s).failure_history =
        s.failure_history ++ [s.current_concurrency_limit] ∧
      (trigger_429_step cfg s).smart_max_cap =
        max 1 (min (max 3 ((s.failure_history ++ [s.current_concurrency_limit]).sum /
          (s.failure_history.length + 1))) cfg.max_concurrency_cap) ∧
      (trigger_429_step cfg s).current_concurrency_limit =
        min (max 1 (s.current_concurrency_limit / 2))
          (trigger_429_step cfg s).smart_max_cap ∧
      (trigger_429_step cfg s).consecutive_429 = s.consecutive_429 + 1) := by
  refine ⟨by decide, by decide, ?_⟩
  intro cfg s
  refine ⟨rfl, ?_, rfl, rfl⟩
  simp only [trigger_429_step, adjust_concurrency_down, update_smart_ceiling,
    List.length_append, List.length_singleton]
  split <;> omega

/-! ## Frontier / visited-set discipline (async_crawl_controller.py, C5) -/

/-- The controller state relevant to frontier deduplication: the visited set
(`self.visited`, modelled as a list) and the log of every `queue.put`
performed during the run. -/
structure FrontierState where
  visited : List String
  enqueued : List String

/-- `run()`'s seeding from the empty state:
`self.visited.add(str(self.start_url))` followed by
`await self.queue.put(str(self.start_url))`. -/
def seedFrontier (start_url : String) : FrontierState :=
  { visited := [start_url], enqueued := [start_url] }

/-- One internal-link candidate in `_process_links`: a nofollow link is
buffered but never queued; otherwise the target is queued iff the crawl is
not stopping and the URL is not yet in the visited set, in which case it is
added to the visited set and then put on the queue (the test, the add and
the put run with no `await` between test and add, so the check-then-add is
atomic on the event loop). -/
def enqueueCandidate (s : FrontierState) (is_nofollow stop_set : Bool)
    (t_url : String) : FrontierState :=
  if is_nofollow then s
  else if stop_set = false ∧ t_url ∉ s.visited then
    { visited := s.visited ++ [t_url], enqueued := s.enqueued ++ [t_url] }
  else s

/-- Frontier states reachable within one crawl run. -/
inductive FrontierReachable (start_url : String) : FrontierState → Prop
  | seed : FrontierReachable start_url (seedFrontier start_url)
  | step {s : FrontierState} (is_nofollow stop_set : Bool) (t_url : String) :
      FrontierReachable start_url s →
      FrontierReachable start_url (enqueueCandidate s is_nofollow stop_set t_url)

/-- C5: the visited set grows monotonically (a URL once in the visited set
survives every step), every enqueued URL was added to the visited set no
later than its `queue.put`, and no normalized URL is ever enqueued twice in
one run (the put log is duplicate-free). -/
theorem frontier_dedup_invariant :
    (∀ (s : FrontierState) (is_nofollow stop_set : Bool) (t_url u : String),
      u ∈ s.visited → u ∈ (enqueueCandidate s is_nofollow stop_set t_url).visited) ∧
    (∀ (start_url : String) (s : FrontierState), FrontierReachable start_url s →
      s.enqueued.Nodup ∧ ∀ u ∈ s.enqueued, u ∈ s.visited) := by
  constructor
  · intro s is_nofollow stop_set t_url u hu
    unfold enqueueCandidate
    split
    · exact hu
    · split
      · exact List.mem_append_left _ hu
      · exact hu
  · intro start_url s hs
    induction hs with
    | seed => exact ⟨List.nodup_singleton _, fun u hu => hu⟩
    | step is_nofollow stop_set t_url hr ih =>
      obtain ⟨hnd, hsub⟩ := ih
      unfold enqueueCandidate
      split
      · exact ⟨hnd, hsub⟩
      · split
        · next hcond =>
          constructor
          · rw [List.nodup_append]
            refine ⟨hnd, List.nodup_singleton _, ?_⟩
            intro u hu hmem
            rw [List.mem_singleton] at hmem
            subst hmem
            exact hcond.2 (hsub u hu)
          · intro u hu
            rcases List.mem_append.mp hu with h | h
            · exact List.mem_append_left _ (hsub u h)
            · exact List.mem_append_right _ h
        · exact ⟨hnd, hsub⟩

/-- C5 witness: the invariant at the freshly seeded state. -/
theorem frontier_dedup_invariant_witness :
    (seedFrontier "https://example.com/").enqueued.Nodup :=
  (frontier_dedup_invariant.2 "https://example.com/" _ FrontierReachable.seed).1

/-! ## Buffer flush (`_flush_buffer`, C7) -/

/-- The four in-memory buffers of `AsyncCrawlController`, with an abstract
row type (Page / Link / Request objects). -/
structure CrawlBuffers (α : Type) where
  pages_buffer : List α
  internal_links_buffer : List α
  external_links_buffer : List α
  requests_buffer : List α

/-- One iteration of the `for name, buf in buffers_to_flush` loop of
`_flush_buffer`: an empty buffer is skipped; in dry-run (`skip_save`) a
non-empty buffer is cleared with no save; otherwise `buf.copy()` is handed
to `self.db.save` and the original is cleared immediately.  Returns the
buffer's new contents and the scheduled save calls. -/
def flushOne (skip_save : Bool) (name : String) (buf : List α) :
    List α × List (String × List α) :=
  if buf.isEmpty then (buf, [])
  else if skip_save then ([], [])
  else ([], [(name, buf)])

/-- `_flush_buffer` under the flush lock: the four buffers are processed in
order and the issued save calls are collected. -/
def flush_buffer (skip_save : Bool) (b : CrawlBuffers α) :
    CrawlBuffers α × List (String × List α) :=
  (⟨(flushOne skip_save "pages" b.pages_buffer).1,
    (flushOne skip_save "internal_links" b.internal_links_buffer).1,
    (flushOne skip_save "external_links" b.external_links_buffer).1,
    (flushOne skip_save "requests" b.requests_buffer).1⟩,
   (flushOne skip_save "pages" b.pages_buffer).2 ++
     (flushOne skip_save "internal_links" b.internal_links_buffer).2 ++
     (flushOne skip_save "external_links" b.external_links_buffer).2 ++
     (flushOne skip_save "requests" b.requests_buffer).2)

theorem flushOne_fst (name : String) (buf : List α) :
    (flushOne false name buf).1 = [] := by
  unfold flushOne
  split
  · next h => exact List.isEmpty_iff.mp h
  · rfl

theorem flushOne_snd (name : String) (buf : List α) :
    (flushOne false name buf).2 = if buf.isEmpty then [] else [(name, buf)] := by
  unfold flushOne
  split
  · rfl
  · rfl

/-- C7: with dry-run off, after `_flush_buffer` each of the four buffers is
empty (in particular each buffer that was non-empty at flush time is cleared
right after its copy is taken), and the storage layer receives exactly one
save call per non-empty buffer carrying exactly the rows that buffer held at
flush time — no duplicates, no omissions. -/
theorem flush_buffer_exact {α : Type} (b : CrawlBuffers α) :
    (flush_buffer false b).1.pages_buffer = [] ∧
    (flush_buffer false b).1.internal_links_buffer = [] ∧
    (flush_buffer false b).1.external_links_buffer = [] ∧
    (flush_buffer false b).1.requests_buffer = [] ∧
    (flush_buffer false b).2 =
      ([("pages", b.pages_buffer), ("internal_links", b.internal_links_buffer),
        ("external_links", b.external_links_buffer),
        ("requests", b.requests_buffer)].filter (fun p => !p.2.isEmpty)) := by
  refine ⟨flushOne_fst _ _, flushOne_fst _ _, flushOne_fst _ _, flushOne_fst _ _, ?_⟩
  simp only [flush_buffer, flushOne_snd]
  by_cases h1 : b.pages_buffer.isEmpty <;>
    by_cases h2 : b.internal_links_buffer.isEmpty <;>
      by_cases h3 : b.external_links_buffer.isEmpty <;>
        by_cases h4 : b.requests_buffer.isEmpty <;>
          simp [List.filter, h1, h2, h3, h4]

/-! ## Worker loop per-item accounting (adaptive_worker_manager.py, C3) -/

/-- The possible outcomes of `await self.work_coro(item)` for one dequeued
item: normal return, an ordinary `Exception`, or `asyncio.CancelledError`
(which since Python 3.8 is not an `Exception` subclass). -/
inductive WorkOutcome
  | ok
  | raisesException
  | cancelled
deriving DecidableEq

/-- How many times `_worker_loop` calls `queue.task_done()` for one dequeued
item, read off the try/except/finally block around `work_coro(item)`: the
`finally` block always calls it once; the `except Exception` handler calls
it a first time before the `finally` runs; the `except CancelledError`
handler also calls it before the `finally` runs (the `finally` executes
before its `break` takes effect). -/
def worker_item_task_done_calls : WorkOutcome → Nat
  | WorkOutcome.ok => 1
  | WorkOutcome.raisesException => 2
  | WorkOutcome.cancelled => 2

/-- Whether `_worker_loop` proceeds to its next iteration after the item:
only cancellation breaks out of the loop; an ordinary exception is caught
and logged and the loop continues. -/
def worker_loop_continues : WorkOutcome → Bool
  | WorkOutcome.ok => true
  | WorkOutcome.raisesException => true
  | WorkOutcome.cancelled => false

/-- C3: an item whose work function raises an ordinary exception does not
kill the worker loop (the exception is caught), but `queue.task_done()` runs
TWICE for that item — once in the `except Exception` handler and once more
in the `finally` block — not exactly once as specified, which corrupts
`queue.join()` accounting (and raises `ValueError: task_done() called too
many times` once the queue's unfinished-task counter is exhausted).  Only
the normal path calls it exactly once. -/
theorem worker_task_done_double_call :
    worker_loop_continues WorkOutcome.raisesException = true ∧
    worker_item_task_done_calls WorkOutcome.raisesException = 2 ∧
    worker_item_task_done_calls WorkOutcome.ok = 1 ∧
    ¬ worker_item_task_done_calls WorkOutcome.raisesException = 1 := by
  exact ⟨rfl, rfl, rfl, by decide⟩

/-! ## Robots.txt service (robots_txt_service.py, C2)

`RobotsTxtService._get_parser` constructs
`urllib.robotparser.RobotFileParser(url=robots_url)` and calls
`parser.parse(...)` only when the robots.txt fetch returned a 2xx status;
on any other status, or on an exception, the fresh parser is cached
untouched.  The parser below embeds the relevant CPython stdlib semantics
(a library dependency): a fresh parser has `last_checked = 0`,
`allow_all = disallow_all = False` and no entries, and `can_fetch` returns
False whenever the file has not been read ("Until the robots.txt file has
been read or found not to exist, we must assume that no url is allowable");
`parse` records rule entries and sets `last_checked` via `modified()`. -/

/-- One `Allow`/`Disallow` rule line of a parsed robots.txt entry. -/
structure RobotsRuleLine where
  allowance : Bool
  path : String
deriving DecidableEq

/-- `RuleLine.applies_to(filename)`. -/
def RobotsRuleLine.applies_to (l : RobotsRuleLine) (filename : String) : Bool :=
  l.path == "*" || l.path.isPrefixOf filename

/-- One `User-agent` entry of a parsed robots.txt. -/
structure RobotsEntry where
  useragents : List String
  rulelines : List RobotsRuleLine
deriving DecidableEq

/-- `Entry.applies_to(useragent)`: the agent is truncated at the first `/`,
lowercased, and matched by `*` or by substring containment. -/
def RobotsEntry.applies_to (e : RobotsEntry) (useragent : String) : Bool :=
  let agent := (useragent.data.takeWhile (fun c => c ≠ '/')).map Char.toLower
  e.useragents.any (fun ua =>
    ua == "*" || decide ((ua.data.map Char.toLower) <:+: agent))

/-- `Entry.allowance(filename)`: first applicable rule line wins, default
allow. -/
def RobotsEntry.allowance (e : RobotsEntry) (filename : String) : Bool :=
  match e.rulelines.find? (fun l => l.applies_to filename) with
  | some l => l.allowance
  | none => true

/-- The `urllib.robotparser.RobotFileParser` state relevant here.
`last_checked` is nonzero iff the file has been read (`modified()` ran). -/
structure RobotFileParser where
  last_checked : Bool
  allow_all : Bool
  disallow_all : Bool
  entries : List RobotsEntry
  default_entry : Option RobotsEntry
deriving DecidableEq

/-- `RobotFileParser(url=...)`: `set_url` only stores the URL; every flag is
at its default and `last_checked` is 0. -/
def RobotFileParser.new : RobotFileParser :=
  { last_checked := false, allow_all := false, disallow_all := false,
    entries := [], default_entry := none }

/-- `RobotFileParser.can_fetch(useragent, url)` (the URL has already been
reduced to its quoted path by the stdlib preamble, a model boundary). -/
def RobotFileParser.can_fetch (p : RobotFileParser) (useragent url_path : String) : Bool :=
  if p.disallow_all then false
  else if p.allow_all then true
  else if !p.last_checked then false
  else
    match p.entries.find? (fun e => e.applies_to useragent) with
    | some e => e.allowance url_path
    | none =>
      match p.default_entry with
      | some e => e.allowance url_path
      | none => true

/-- The parser `_get_parser` caches for an origin, as a function of the
robots.txt fetch outcome: `none` models an exception during the fetch;
`parsed` stands for the result of `parser.parse(content.splitlines())` on a
2xx response (whose internals the fail-open claim never touches). -/
def parser_for_fetch_outcome (status : Option Nat) (parsed : RobotFileParser) : RobotFileParser :=
  match status with
  | some st => if 200 ≤ st ∧ st < 300 then parsed else RobotFileParser.new
  | none => RobotFileParser.new

/-- `RobotsTxtService.can_fetch(url)` for a URL of an origin whose cached
parser arose from the given fetch outcome. -/
def service_can_fetch (status : Option Nat) (parsed : RobotFileParser)
    (useragent url_path : String) : Bool :=
  (parser_for_fetch_outcome status parsed).can_fetch useragent url_path

/-- C2: contrary to the claim, a non-2xx or failed robots.txt fetch caches a
never-parsed `RobotFileParser` (the code logs "Allowing all." but calls
`parse` only on 2xx), and the stdlib parser answers False for every URL
while `last_checked` is unset — so `can_fetch` fails CLOSED (blocks the
crawl) for every URL of that origin, never True. -/
theorem robots_fetch_failure_fails_closed :
    (∀ (st : Nat) (parsed : RobotFileParser) (useragent url_path : String),
      ¬ (200 ≤ st ∧ st < 300) →
      service_can_fetch (some st) parsed useragent url_path = false) ∧
    (∀ (parsed : RobotFileParser) (useragent url_path : String),
      service_can_fetch none parsed useragent url_path = false) := by
  constructor
  · intro st parsed useragent url_path h
    simp only [service_can_fetch, parser_for_fetch_outcome, if_neg h]
    rfl
  · intro parsed useragent url_path
    rfl

/-- C2 witness: a 404 robots.txt fetch makes `can_fetch` deny a concrete
URL of the origin. -/
theorem robots_fetch_failure_fails_closed_witness :
    service_can_fetch (some 404) RobotFileParser.new "PydPiperBot"
      "/page" = false :=
  robots_fetch_failure_fails_closed.1 404 RobotFileParser.new "PydPiperBot"
    "/page" (by decide)

/-! ## URL utilities and link classification (url_utils.py, link_processor_service.py, C9) -/

/-- The result of `urllib.parse.urlparse` on an absolute URL; the stdlib
parser itself is the model boundary, so the embedding works over parsed
URLs. -/
structure ParsedUrl where
  scheme : String
  netloc : String
  path : String
  query : String
  fragment : String
deriving DecidableEq

/-- The extension whitelist of `UrlUtils.is_allowed_extension`. -/
def WHITELISTED_EXTENSIONS : List String :=
  ["", ".htm", ".html", ".xhtml", ".shtml", ".shtm", ".stm",
   ".jhtml", ".asp", ".aspx", ".ashx", ".asmx", ".axd", ".mspx",
   ".jsp", ".jspx", ".do", ".action", ".jsf", ".faces",
   ".php", ".php3", ".php4", ".php5", ".phtml",
   ".pl", ".cgi", ".fcgi", ".py", ".rb", ".rhtml", ".dll",
   ".cfm", ".cfml", ".yaws", ".lasso", ".nsf", ".xsp", ".hcsp", ".adp"]

/-- The final path component (basename) of a URL path: everything after the
last `/`. -/
def basenameAfterSlash (cs : List Char) : List Char :=
  cs.foldl (fun acc c => if c = '/' then [] else acc ++ [c]) []

/-- The extension part of `os.path.splitext` applied to a URL path: the
suffix from the last dot of the final path component, unless every character
of that component before the dot is itself a dot. -/
def splitext_extension (path : String) : String :=
  let base := basenameAfterSlash path.data
  let r := base.reverse
  let after := r.takeWhile (fun c => c ≠ '.')
  if after.length = r.length then ""
  else
    let pre := base.take (base.length - after.length - 1)
    if pre.any (fun c => c ≠ '.') then String.mk ('.' :: after.reverse) else ""

/-- `str.lower()` on ASCII, character by character. -/
def toLowerString (s : String) : String := String.mk (s.data.map Char.toLower)

/-- `UrlUtils.is_allowed_extension(url)`. -/
def is_allowed_extension (u : ParsedUrl) : Bool :=
  WHITELISTED_EXTENSIONS.contains (toLowerString (splitext_extension u.path))

/-- `UrlUtils.is_valid_link(url)` at its default arguments
(`allow_query_params=False`, `allow_fragments=False`): http(s) scheme, a
netloc, a whitelisted extension, and neither query nor fragment. -/
def is_valid_link (u : ParsedUrl) : Bool :=
  (u.scheme == "http" || u.scheme == "https") &&
    u.netloc != "" &&
    is_allowed_extension u &&
    u.query == "" &&
    u.fragment == ""

/-- `UrlUtils.is_internal_link(url, base_url)`: netloc equality. -/
def is_internal_link (u base : ParsedUrl) : Bool :=
  u.netloc == base.netloc

/-- `UrlUtils.is_canonical_page(url, base_url)`: internal and valid. -/
def is_canonical_page (u base : ParsedUrl) : Bool :=
  is_internal_link u base && is_valid_link u

/-- One `<a href=...>` tag of `process_links`, with its target already
resolved against the source and normalized (absolute, fragment stripped) —
`urljoin`/`normalize_url` are at the stdlib boundary and do not change the
path extension. -/
structure AnchorTag where
  target : ParsedUrl
  anchor : String
  rel : String
deriving DecidableEq

/-- One iteration of the anchor loop in
`LinkProcessorService.process_links`: disallowed extensions are skipped;
a canonical target is appended to the internal list; a same-domain but
non-canonical target hits the `pass` branch ("No action needed currently");
everything else is appended to the external list. -/
def classify_step (base : ParsedUrl) (acc : List AnchorTag × List AnchorTag)
    (a : AnchorTag) : List AnchorTag × List AnchorTag :=
  if !is_allowed_extension a.target then acc
  else if is_canonical_page a.target base then (acc.1 ++ [a], acc.2)
  else if is_internal_link a.target base then acc
  else (acc.1, acc.2 ++ [a])

/-- `process_links`: fold the anchor loop over the page's anchors, returning
`(internal_links, external_links)`. -/
def process_links (base : ParsedUrl) (anchors : List AnchorTag) :
    List AnchorTag × List AnchorTag :=
  anchors.foldl (classify_step base) ([], [])

/-- The base URL of the C9 counterexample page (`http://example.com`). -/
def sourceBase : ParsedUrl := ⟨"http", "example.com", "", "", ""⟩

/-- A same-domain anchor carrying a query parameter: internal but not
canonical under the default `is_valid_link` arguments. -/
def noncanonicalAnchor : AnchorTag :=
  ⟨⟨"http", "example.com", "/page", "utm_source=x", ""⟩, "link text", ""⟩

/-- C9 counterexample: a same-domain, non-canonical target (here one with a
query parameter) is NOT recorded — `process_links` returns it in neither the
internal nor the external list (the classifier's `pass` branch drops it), so
the claim that such links appear in the returned link data fails. -/
theorem link_noncanonical_not_recorded :
    is_internal_link noncanonicalAnchor.target sourceBase = true ∧
    is_canonical_page noncanonicalAnchor.target sourceBase = false ∧
    process_links sourceBase [noncanonicalAnchor] = ([], []) := by
  refine ⟨by decide, by decide, by decide⟩

/-- C9 (amended): an anchor whose normalized target is on the source's
domain but not canonical (e.g. it carries excluded query parameters) is
neither recorded in the returned link data nor re-queued: the classification
loop leaves both output lists unchanged for it, and only returned internal
links ever reach the frontier. -/
theorem link_internal_noncanonical_dropped :
    ∀ (base : ParsedUrl) (acc : List AnchorTag × List AnchorTag) (a : AnchorTag),
      is_internal_link a.target base = true →
      is_canonical_page a.target base = false →
      classify_step base acc a = acc := by
  intro base acc a h1 h2
  unfold classify_step
  split
  · rfl
  · simp [h1, h2]

/-- C9 witness: the amended statement applied to the concrete query-carrying
same-domain anchor. -/
theorem link_internal_noncanonical_dropped_witness :
    classify_step sourceBase ([], []) noncanonicalAnchor = ([], []) :=
  link_internal_noncanonical_dropped sourceBase ([], []) noncanonicalAnchor
    (by decide) (by decide)
